import Mathlib

/-!
Verification of the UAConsole OPC UA browser core (`src/uaconsole.c`).

The development shallowly embeds the recursive traversal function
`browseAndReadNode` and its rendering helpers.  The session collaborator
(open62541 client calls) is modelled as a record of response functions
(`Env`); a failed call is `none`.  The C recursion carries no bound, so the
embedding threads an explicit fuel argument: `none` means the fuel was
exhausted, and "the C program diverges" is rendered as "for every fuel the
embedding returns `none`".  Output is modelled as a list of events: one
`Ev.line` per printed node line, `Ev.diag` for the verbose reference-count
diagnostic line, and `Ev.browseCall` marking each browse service round trip.
-/

/-- NodeId identifier variants (`UA_NodeId.identifierType` plus payload).
Guid and ByteString payloads are byte lists; the C code never reads them. -/
inductive Identifier where
  | numeric (v : Nat)
  | str (s : String)
  | guid (bytes : List Nat)
  | bytestr (bytes : List Nat)
deriving DecidableEq

/-- `UA_NodeId`: a namespace index (uint16) and an identifier. -/
structure NodeId where
  namespaceIndex : Nat
  identifier : Identifier
deriving DecidableEq

/-- `UA_NodeClass` values handled by the switch in `browseAndReadNode`;
`Unknown` stands for the `default:` case. -/
inductive NodeClass where
  | Object | Variable | Method | ObjectType | VariableType
  | ReferenceType | DataType | View | Unknown
deriving DecidableEq

/-- `UA_QualifiedName`: only `name` is ever printed. -/
structure QualifiedName where
  namespaceIndex : Nat
  name : String
deriving DecidableEq

/-- One browse reference: target NodeId and direction flag, as consumed from
`bResp.results[0].references[i]`. -/
structure BrowseRef where
  nodeId : NodeId
  isForward : Bool
deriving DecidableEq

/-- `UA_DateTimeStruct` fields used by the `%04u-%02u-%02u %02u:%02u:%02u`
format (the structured calendar breakdown of `UA_DateTime_toStruct`). -/
structure DateTimeStruct where
  year : Nat
  month : Nat
  day : Nat
  hour : Nat
  minute : Nat
  second : Nat
deriving DecidableEq

/-- The scalar kinds the value switch of `browseAndReadNode` distinguishes.
Float payloads are modelled as rationals (finite IEEE float values); the
DateTime payload is the already-converted calendar struct. `other` carries
`value.type->typeName` of an unhandled variant. -/
inductive AttributeValue where
  | boolean (b : Bool)
  | uint16 (v : Nat)
  | uint32 (v : Nat)
  | float (q : ℚ)
  | dateTime (d : DateTimeStruct)
  | other (typeName : String)
deriving DecidableEq

/-- Result of `UA_Client_readValueAttribute`: the raw status code and the
variant, `none` when the variant is empty (`UA_Variant_isEmpty`). -/
structure ReadValueResult where
  status : Nat
  value : Option AttributeValue
deriving DecidableEq

/-- zero padding to two digits, as `%02u`. -/
def pad2 (n : Nat) : String :=
  if n < 10 then "0" ++ Nat.repr n else Nat.repr n

/-- zero padding to four digits, as `%04u`. -/
def pad4 (n : Nat) : String :=
  if n < 10 then "000" ++ Nat.repr n
  else if n < 100 then "00" ++ Nat.repr n
  else if n < 1000 then "0" ++ Nat.repr n
  else Nat.repr n

/-- Uppercase hex digit, as used by `%X`. -/
def hexDigit (n : Nat) : Char :=
  if n < 10 then Char.ofNat (48 + n) else Char.ofNat (55 + n)

/-- `%08X`: eight uppercase hex digits, zero padded, most significant first. -/
def hex8 (n : Nat) : String :=
  String.mk (((List.range 8).reverse).map (fun i => hexDigit (n / 16 ^ i % 16)))

/-- `%.2f` on a finite float value modelled as a rational: round to
hundredths and print with exactly two digits after the decimal point. -/
def format2f (q : ℚ) : String :=
  let n : ℤ := round (q * 100)
  (if q < 0 then "-" else "") ++ Nat.repr (n.natAbs / 100) ++ "." ++ pad2 (n.natAbs % 100)

/-- The value dispatch chain of the `UA_NODECLASS_VARIABLE` case: Boolean,
UInt16, UInt32, Float, DateTime, and the `[typeName]` fallback. -/
def decode : AttributeValue → String
  | .boolean b => if b then "true" else "false"
  | .uint16 v => Nat.repr v
  | .uint32 v => Nat.repr v
  | .float q => format2f q
  | .dateTime d =>
      pad4 d.year ++ "-" ++ pad2 d.month ++ "-" ++ pad2 d.day ++ " " ++
      pad2 d.hour ++ ":" ++ pad2 d.minute ++ ":" ++ pad2 d.second
  | .other typeName => "[" ++ typeName ++ "]"

/-- Display label of each node class, from the `switch (nodeClass)` arms. -/
def classLabel : NodeClass → String
  | .Object => "Object"
  | .Variable => "Variable"
  | .Method => "Method"
  | .ObjectType => "ObjectType"
  | .VariableType => "VariableType"
  | .ReferenceType => "ReferenceType"
  | .DataType => "DataType"
  | .View => "View"
  | .Unknown => "Unknown"

/-- C buffer truncation at the character level: `snprintf` into a buffer of
`k + 1` bytes, and `strncat` with bound `k`, keep at most the first `k`
characters. -/
def strTake (k : Nat) (s : String) : String :=
  String.mk (s.data.take k)

/-- The `nodeIdStr` buffer (`char[256]`): `snprintf(" [ns=%u;")`, then for a
numeric identifier `snprintf("i=%u]")` into `temp[64]` and for a string
identifier `snprintf("s=%.*s]")` into `temp[256]`, each appended by
`strncat(nodeIdStr, temp, sizeof(nodeIdStr) - strlen(nodeIdStr) - 1)`; the
`if`/`else if` chain appends nothing for any other identifier type.  Each
`snprintf` keeps at most buffer-size-minus-one characters, and the
`strncat` bound caps the total at 255 characters. -/
def formatNodeId (n : NodeId) : String :=
  let nodeIdStr := strTake 255 (" [ns=" ++ Nat.repr n.namespaceIndex ++ ";")
  match n.identifier with
  | .numeric v =>
      nodeIdStr ++ strTake (255 - nodeIdStr.length) (strTake 63 ("i=" ++ Nat.repr v ++ "]"))
  | .str s =>
      nodeIdStr ++ strTake (255 - nodeIdStr.length) (strTake 255 ("s=" ++ s ++ "]"))
  | _ => nodeIdStr

/-- The indentation loop body: `for (i = 0; i < depth && i < 60; i++)`
writes `indent[i] = ' '` and `indent[i+1] = ' '` into the 64-byte buffer.
Gas 60 covers the at most 60 iterations. -/
def indentGo (depth : Nat) : Nat → Nat → List Char → List Char
  | 0, _, buf => buf
  | gas + 1, i, buf =>
      if i < depth ∧ i < 60 then
        indentGo depth gas (i + 1) ((buf.set i ' ').set (i + 1) ' ')
      else buf

/-- The printed indentation: run the loop on the zero-initialised `char
indent[64]` and print as `%s` (up to the first NUL byte). -/
def indentStr (depth : Nat) : String :=
  String.mk ((indentGo depth 60 0 (List.replicate 64 (Char.ofNat 0))).takeWhile
    (fun c => c ≠ Char.ofNat 0))

/-- The indentation the spec asks for: two spaces per depth level. -/
def specIndent (depth : Nat) : String :=
  String.mk (List.replicate (2 * depth) ' ')

/-- The session collaborator: the four open62541 client calls the traversal
makes, as response functions. `none` models a non-GOOD status on attribute
reads, and `bResp.resultsSize == 0` (a failed browse service) on `browse`. -/
structure Env where
  readNodeClass : NodeId → Option NodeClass
  readBrowseName : NodeId → Option QualifiedName
  readValue : NodeId → ReadValueResult
  browse : NodeId → Option (List BrowseRef)

/-- Observable events of one traversal: a printed node line, the verbose
`Found N references to browse` diagnostic line, and a browse round trip. -/
inductive Ev where
  | line (s : String)
  | diag (s : String)
  | browseCall (n : NodeId)
deriving DecidableEq

/-- Tests whether an event is the verbose diagnostic line. -/
def Ev.isDiag : Ev → Bool
  | .diag _ => true
  | _ => false

/-- All sink writes (printed lines) in an event list. -/
def writesOf (evs : List Ev) : List String :=
  evs.filterMap (fun e => match e with
    | Ev.line s => some s
    | Ev.diag s => some s
    | Ev.browseCall _ => none)

/-- Only the per-node lines in an event list. -/
def nodeLinesOf (evs : List Ev) : List String :=
  evs.filterMap (fun e => match e with
    | Ev.line s => some s
    | _ => none)

/-- Tail of a Variable line: `" = "` plus the decoded value when
`readStatus == UA_STATUSCODE_GOOD && !UA_Variant_isEmpty(&value)`, otherwise
`" [Read error: 0x%08X]"` with the raw status code. -/
def valuePart (r : ReadValueResult) : String :=
  match r.value, r.status with
  | some v, 0 => " = " ++ decode v
  | some _, s => " [Read error: 0x" ++ hex8 s ++ "]"
  | none, s => " [Read error: 0x" ++ hex8 s ++ "]"

/-- The `switch (nodeClass)` tail of the line: class label in parentheses,
and for Variable nodes the value read and its rendering. -/
def classValue (env : Env) (nodeId : NodeId) : NodeClass → String
  | .Variable => " (Variable)" ++ valuePart (env.readValue nodeId)
  | nc => " (" ++ classLabel nc ++ ")"

/-- One full printed node line: indentation, browse name, a space, the
`nodeIdStr` buffer (which itself starts with a space), and the class/value
tail. -/
def renderLine (env : Env) (nodeId : NodeId) (nc : NodeClass)
    (bn : QualifiedName) (depth : Nat) : String :=
  indentStr depth ++ bn.name ++ " " ++ formatNodeId nodeId ++ classValue env nodeId nc

/-- The optional diagnostic events: `if (verbose && depth == 0)` prints
`"  Found %zu references to browse"`, counting all returned references. -/
def diagEvs (verbose : Bool) (depth : Nat) (refs : List BrowseRef) : List Ev :=
  if verbose = true ∧ depth = 0 then
    [Ev.diag ("  Found " ++ Nat.repr refs.length ++ " references to browse")]
  else []

/-- Sequential composition of two optional event lists: both runs must
complete; their events are concatenated in order.  `none` (fuel
exhaustion) anywhere poisons the whole result. -/
def seqTwo (o p : Option (List Ev)) : Option (List Ev) :=
  match o, p with
  | some a, some b => some (a ++ b)
  | _, _ => none

/-- The reference loop: `for i in references: if isForward, recurse`, in
collaborator order; `none` propagates fuel exhaustion from a child. -/
def seqChildren (rec : NodeId → Nat → Option (List Ev)) (depth : Nat) :
    List BrowseRef → Option (List Ev)
  | [] => some []
  | r :: rs =>
      if r.isForward then
        seqTwo (rec r.nodeId depth) (seqChildren rec depth rs)
      else seqChildren rec depth rs

/-- One activation of `browseAndReadNode`, with the recursive call
abstracted as `rec`: read the two attributes (skip silently on failure),
print the line, and for Object and View nodes call the browse service and
walk the forward references. -/
def browseStep (env : Env) (verbose : Bool)
    (rec : NodeId → Nat → Option (List Ev)) (nodeId : NodeId) (depth : Nat) :
    Option (List Ev) :=
  match env.readNodeClass nodeId, env.readBrowseName nodeId with
  | some nodeClass, some browseName =>
      let lineEv : Ev := Ev.line (renderLine env nodeId nodeClass browseName depth)
      if nodeClass = NodeClass.Object ∨ nodeClass = NodeClass.View then
        Option.map (fun evs => lineEv :: Ev.browseCall nodeId :: evs)
          (match env.browse nodeId with
           | some refs =>
               if 0 < refs.length then
                 Option.map (fun evs => diagEvs verbose depth refs ++ evs)
                   (seqChildren rec (depth + 1) refs)
               else some []
           | none => some [])
      else some [lineEv]
  | _, _ => some []

/-- The recursive traversal, with explicit fuel: fuel `0` is `none`
(exhausted), otherwise one `browseStep` whose recursive calls run on one
unit less.  The C function has no depth bound, so fuel exhaustion at every
fuel value renders non-termination of the C recursion. -/
def browseAndReadNode (env : Env) (verbose : Bool) :
    Nat → NodeId → Nat → Option (List Ev)
  | 0, _, _ => none
  | fuel + 1, nodeId, depth =>
      browseStep env verbose (browseAndReadNode env verbose fuel) nodeId depth

/-- Sequencing of a list of optional event lists, in order. -/
def seqOption : List (Option (List Ev)) → Option (List Ev)
  | [] => some []
  | o :: os => seqTwo o (seqOption os)

/-- The traversal from a node diverges: no fuel suffices. -/
def divergesFrom (env : Env) (verbose : Bool) (n : NodeId) (depth : Nat) : Prop :=
  ∀ fuel, browseAndReadNode env verbose fuel n depth = none

/-- A small concrete collaborator: a Method node `i=10`; an Object `i=11`
whose browse returns a forward reference to `i=10` and a backward reference
to itself; a Variable `i=12` whose value read fails with `0x80010000`; a
Variable `i=13` holding UInt32 42; an Object `i=14` whose browse fails; and
a Variable `ns=1;i=7` whose value read succeeds with an empty variant. -/
def envW : Env where
  readNodeClass := fun n =>
    match n with
    | ⟨0, .numeric 10⟩ => some .Method
    | ⟨0, .numeric 11⟩ => some .Object
    | ⟨0, .numeric 12⟩ => some .Variable
    | ⟨0, .numeric 13⟩ => some .Variable
    | ⟨0, .numeric 14⟩ => some .Object
    | ⟨1, .numeric 7⟩ => some .Variable
    | _ => none
  readBrowseName := fun n =>
    match n with
    | ⟨0, .numeric 10⟩ => some ⟨0, "M"⟩
    | ⟨0, .numeric 11⟩ => some ⟨0, "O"⟩
    | ⟨0, .numeric 12⟩ => some ⟨0, "V"⟩
    | ⟨0, .numeric 13⟩ => some ⟨0, "W"⟩
    | ⟨0, .numeric 14⟩ => some ⟨0, "B"⟩
    | ⟨1, .numeric 7⟩ => some ⟨1, "N"⟩
    | _ => none
  readValue := fun n =>
    match n with
    | ⟨0, .numeric 12⟩ => ⟨0x80010000, none⟩
    | ⟨0, .numeric 13⟩ => ⟨0, some (.uint32 42)⟩
    | ⟨1, .numeric 7⟩ => ⟨0, none⟩
    | _ => ⟨0, none⟩
  browse := fun n =>
    match n with
    | ⟨0, .numeric 11⟩ => some [⟨⟨0, .numeric 10⟩, true⟩, ⟨⟨0, .numeric 11⟩, false⟩]
    | ⟨0, .numeric 14⟩ => none
    | _ => some []

/-- Fault-isolation collaborator: root Object `i=1` with two forward
children; child `i=2` fails its node-class read but has a readable child
`i=4`; sibling `i=3` is a readable Method. -/
def envC3 : Env where
  readNodeClass := fun n =>
    match n with
    | ⟨0, .numeric 1⟩ => some .Object
    | ⟨0, .numeric 3⟩ => some .Method
    | ⟨0, .numeric 4⟩ => some .Method
    | _ => none
  readBrowseName := fun n =>
    match n with
    | ⟨0, .numeric 1⟩ => some ⟨0, "Root"⟩
    | ⟨0, .numeric 3⟩ => some ⟨0, "S"⟩
    | ⟨0, .numeric 4⟩ => some ⟨0, "Y"⟩
    | _ => none
  readValue := fun _ => ⟨0, none⟩
  browse := fun n =>
    match n with
    | ⟨0, .numeric 1⟩ => some [⟨⟨0, .numeric 2⟩, true⟩, ⟨⟨0, .numeric 3⟩, true⟩]
    | ⟨0, .numeric 2⟩ => some [⟨⟨0, .numeric 4⟩, true⟩]
    | _ => some []

/-- A collaborator whose ObjectsFolder root `ns=0;i=85` carries a forward
reference back to itself: a forward cycle. -/
def cycEnv : Env where
  readNodeClass := fun _ => some .Object
  readBrowseName := fun _ => some ⟨0, "Objects"⟩
  readValue := fun _ => ⟨0, none⟩
  browse := fun _ => some [⟨⟨0, .numeric 85⟩, true⟩]

/-- A forward chain of Objects `i=0, i=1, ...` of length `L`: node `i=k`
has the single forward child `i=k+1` while `k < L`, and node `i=L` is a
leaf Object. -/
def chainFin (L : Nat) : Env where
  readNodeClass := fun _ => some .Object
  readBrowseName := fun _ => some ⟨0, "N"⟩
  readValue := fun _ => ⟨0, none⟩
  browse := fun n =>
    match n.identifier with
    | .numeric k => if k < L then some [⟨⟨0, .numeric (k + 1)⟩, true⟩] else some []
    | _ => some []

/-- Reads a nonempty all-digit string back as a base-10 numeral; `none` on
anything that is not plain decimal text. -/
def decVal? (s : String) : Option Nat :=
  if s.data ≠ [] ∧ s.data.all Char.isDigit then
    some (s.data.foldl (fun acc c => acc * 10 + (c.toNat - 48)) 0)
  else none

/-- Decimal digit characters of a natural number, most significant first. -/
def natDigits (n : Nat) : List Char :=
  if _h : n < 10 then [Nat.digitChar n]
  else natDigits (n / 10) ++ [Nat.digitChar (n % 10)]
decreasing_by exact Nat.div_lt_self (by omega) (by omega)

/-- Fixed two-decimal-place text: some text, then a decimal point, then
exactly two digit characters. -/
def isFixedTwoDecimal (s : String) : Prop :=
  ∃ pre a b, s.data = pre ++ ['.', a, b] ∧ a.isDigit = true ∧ b.isDigit = true

/-- Keeps only the non-diagnostic events of a trace. -/
def stripDiag (evs : List Ev) : List Ev :=
  evs.filter (fun e => !Ev.isDiag e)

/-- Unfolding of the traversal at positive fuel. -/
theorem run_succ (env : Env) (v : Bool) (fuel : Nat) (n : NodeId) (d : Nat) :
    browseAndReadNode env v (fuel + 1) n d =
      browseStep env v (browseAndReadNode env v fuel) n d := rfl

/-- The reference loop touches exactly the forward references, in
collaborator order. -/
theorem seqChildren_eq (rec : NodeId → Nat → Option (List Ev)) (d : Nat)
    (refs : List BrowseRef) :
    seqChildren rec d refs =
      seqOption ((refs.filter (fun r => r.isForward)).map (fun r => rec r.nodeId d)) := by
  induction refs with
  | nil => rfl
  | cons r rs ih =>
      by_cases hf : r.isForward
      · simp [seqChildren, hf, List.filter_cons, seqOption, ih]
      · simp [seqChildren, hf, List.filter_cons, ih]

/-- Composition with a completed left run. -/
theorem seqTwo_some (a : List Ev) (p : Option (List Ev)) :
    seqTwo (some a) p = Option.map (fun b => a ++ b) p := by
  cases p <;> rfl

/-- Fuel exhaustion on the left poisons the composition. -/
theorem seqTwo_none (p : Option (List Ev)) : seqTwo none p = none := by
  cases p <;> rfl

/-- C7: the claim asks for two spaces per depth level (`specIndent`); the
loop in the code instead produces `min depth 60 + 1` spaces for any
positive depth — at depth 2 three spaces instead of four.  The overlapping
writes `indent[i] = ' '; indent[i+1] = ' '` are an indexing slip. -/
theorem C7_indentation_depth2 :
    indentStr 0 = specIndent 0 ∧ indentStr 1 = specIndent 1 ∧
    indentStr 2 = "   " ∧ specIndent 2 = "    " ∧
    indentStr 2 ≠ specIndent 2 ∧ indentStr 3 ≠ specIndent 3 := by decide

/-- C6: counterexample — for a Guid identifier the formatter emits only the
unterminated prefix `" [ns=7;"`: no kind tag, no value, no closing bracket,
so the output does not have the claimed shape `"[ns=<ns>;<tag>=<value>]"`. -/
theorem C6_counterexample :
    formatNodeId ⟨7, Identifier.guid []⟩ = " [ns=7;" ∧
    (formatNodeId ⟨7, Identifier.guid []⟩).data.getLast? = some ';' := by decide

/-- Concrete check of the formatter on numeric, string and bytestring
identifiers. -/
theorem formatNodeId_examples :
    formatNodeId ⟨0, Identifier.numeric 85⟩ = " [ns=0;i=85]" ∧
    formatNodeId ⟨2, Identifier.str "abc"⟩ = " [ns=2;s=abc]" ∧
    formatNodeId ⟨3, Identifier.bytestr [1, 2]⟩ = " [ns=3;" := by decide

/-- C4: counterexample — a value read that succeeds (`status = 0`,
`UA_STATUSCODE_GOOD`) but returns an empty variant still renders the
read-error string, with status `0x00000000`, so the read-error string does
not appear only on failed reads and the decoder is bypassed despite the
successful read. -/
theorem C4_counterexample :
    (envW.readValue ⟨1, Identifier.numeric 7⟩).status = 0 ∧
    browseAndReadNode envW false 1 ⟨1, Identifier.numeric 7⟩ 0 =
      some [Ev.line "N  [ns=1;i=7] (Variable) [Read error: 0x00000000]"] :=
  ⟨rfl, rfl⟩

/-- C4 (amended): the decoder runs exactly when the value read succeeds
with a non-empty variant; on a failed read, or a successful read of an
empty variant, the line instead ends with `" [Read error: 0x<8-hex>]"`
rendered from the raw status code; and a Variable node always renders a
single line and never recurses, so traversal continues with its
siblings. -/
theorem C4_amended_value_rendering :
    (∀ (r : ReadValueResult) (v : AttributeValue), r.status = 0 → r.value = some v →
        valuePart r = " = " ++ decode v)
    ∧ (∀ r : ReadValueResult, r.status ≠ 0 ∨ r.value = none →
        valuePart r = " [Read error: 0x" ++ hex8 r.status ++ "]")
    ∧ (∀ (env : Env) (vb : Bool) (fuel : Nat) (n : NodeId) (d : Nat) (bn : QualifiedName),
        env.readNodeClass n = some NodeClass.Variable →
        env.readBrowseName n = some bn →
        browseAndReadNode env vb (fuel + 1) n d =
          some [Ev.line (indentStr d ++ bn.name ++ " " ++ formatNodeId n ++
            " (Variable)" ++ valuePart (env.readValue n))]) := by
  refine ⟨?_, ?_, ?_⟩
  · intro r v h0 hv
    simp [valuePart, hv, h0]
  · intro r h
    rcases hr : r.value with _ | v
    · simp [valuePart, hr]
    · rcases h with h | h
      · rcases hs : r.status with _ | s
        · exact absurd hs h
        · simp [valuePart, hr, hs]
      · rw [hr] at h
        exact absurd h (by simp)
  · intro env vb fuel n d bn h1 h2
    simp [browseAndReadNode, browseStep, h1, h2, renderLine, classValue, String.append_assoc]

/-- C4 witness: the three parts applied at a successful UInt32 read, the
spec's failed read with status `0x80010000`, and the Variable node `i=12`
of `envW`. -/
theorem C4_witness :
    valuePart ⟨0, some (AttributeValue.uint32 42)⟩ = " = " ++ decode (AttributeValue.uint32 42) ∧
    valuePart ⟨0x80010000, none⟩ = " [Read error: 0x" ++ hex8 0x80010000 ++ "]" ∧
    browseAndReadNode envW false 1 ⟨0, Identifier.numeric 12⟩ 0 =
      some [Ev.line (indentStr 0 ++ "V" ++ " " ++ formatNodeId ⟨0, Identifier.numeric 12⟩ ++
        " (Variable)" ++ valuePart (envW.readValue ⟨0, Identifier.numeric 12⟩))] :=
  ⟨C4_amended_value_rendering.1 ⟨0, some (AttributeValue.uint32 42)⟩ _ rfl rfl,
   C4_amended_value_rendering.2.1 ⟨0x80010000, none⟩ (Or.inr rfl),
   C4_amended_value_rendering.2.2 envW false 0 ⟨0, Identifier.numeric 12⟩ 0 ⟨0, "V"⟩ rfl rfl⟩

/-- C3: a failure of either attribute read makes the traversal emit
nothing for that node or its subtree and return normally (`some []`, never
an error); concretely in `envC3`, node `i=2` fails its attribute read while
having a readable child `i=4`, and the run from the root emits the root's
line and the sibling `i=3`'s line only — the subtree of `i=2` contributes
zero lines while its sibling renders normally. -/
theorem C3_attribute_failure_isolated :
    (∀ (env : Env) (v : Bool) (fuel : Nat) (n : NodeId) (d : Nat),
        env.readNodeClass n = none ∨ env.readBrowseName n = none →
        browseAndReadNode env v (fuel + 1) n d = some [])
    ∧ browseAndReadNode envC3 false 3 ⟨0, Identifier.numeric 1⟩ 0 =
        some [Ev.line "Root  [ns=0;i=1] (Object)", Ev.browseCall ⟨0, Identifier.numeric 1⟩,
              Ev.line "  S  [ns=0;i=3] (Method)"]
    ∧ envC3.readNodeClass ⟨0, Identifier.numeric 2⟩ = none
    ∧ envC3.browse ⟨0, Identifier.numeric 2⟩ = some [⟨⟨0, Identifier.numeric 4⟩, true⟩]
    ∧ envC3.readNodeClass ⟨0, Identifier.numeric 4⟩ = some NodeClass.Method := by
  refine ⟨?_, rfl, rfl, rfl, rfl⟩
  intro env v fuel n d h
  rcases h with h | h
  · simp [browseAndReadNode, browseStep, h]
  · cases hc : env.readNodeClass n <;> simp [browseAndReadNode, browseStep, hc, h]

/-- C3 witness: the failing node `i=2` of `envC3` itself: its subtree
yields no events, by the first part of the theorem. -/
theorem C3_witness :
    (envC3.readNodeClass ⟨0, Identifier.numeric 2⟩ = none ∨
      envC3.readBrowseName ⟨0, Identifier.numeric 2⟩ = none) ∧
    browseAndReadNode envC3 false 1 ⟨0, Identifier.numeric 2⟩ 1 = some [] :=
  ⟨Or.inl rfl, C3_attribute_failure_isolated.1 envC3 false 0 ⟨0, Identifier.numeric 2⟩ 1 (Or.inl rfl)⟩

/-- C10: for an Object or View node whose browse call fails (`none`) or
returns zero references, the node renders exactly its own line (plus the
browse round trip) and no children are visited; the result is `some`, so
the enclosing sibling loop continues normally. -/
theorem C10_browse_failure_leaf (env : Env) (v : Bool) (fuel : Nat) (n : NodeId)
    (d : Nat) (nc : NodeClass) (bn : QualifiedName)
    (h1 : env.readNodeClass n = some nc) (h2 : env.readBrowseName n = some bn)
    (h3 : nc = NodeClass.Object ∨ nc = NodeClass.View)
    (h4 : env.browse n = none ∨ env.browse n = some []) :
    browseAndReadNode env v (fuel + 1) n d =
      some [Ev.line (renderLine env n nc bn d), Ev.browseCall n] := by
  rcases h4 with h4 | h4 <;>
    simp [browseAndReadNode, browseStep, h1, h2, h3, h4]

/-- C10 witness: the Object `i=14` of `envW`, whose browse call fails. -/
theorem C10_witness :
    browseAndReadNode envW false 1 ⟨0, Identifier.numeric 14⟩ 0 =
      some [Ev.line (renderLine envW ⟨0, Identifier.numeric 14⟩ NodeClass.Object ⟨0, "B"⟩ 0),
            Ev.browseCall ⟨0, Identifier.numeric 14⟩] :=
  C10_browse_failure_leaf envW false 0 ⟨0, Identifier.numeric 14⟩ 0 NodeClass.Object ⟨0, "B"⟩
    rfl rfl (Or.inl rfl) (Or.inl rfl)

/-- C2: nodes whose class is not Object or View render their line and make
no browse call and no recursion; Object and View nodes call the browse
service once and then traverse the returned references; and the reference
loop recurses exactly on the references with `isForward = true`, in
collaborator-returned order, each at depth `d + 1`. -/
theorem C2_forward_only_object_view :
    (∀ (env : Env) (v : Bool) (fuel : Nat) (n : NodeId) (d : Nat) (nc : NodeClass)
        (bn : QualifiedName),
        env.readNodeClass n = some nc → env.readBrowseName n = some bn →
        ¬(nc = NodeClass.Object ∨ nc = NodeClass.View) →
        browseAndReadNode env v (fuel + 1) n d =
          some [Ev.line (renderLine env n nc bn d)])
    ∧ (∀ (env : Env) (v : Bool) (fuel : Nat) (n : NodeId) (d : Nat) (nc : NodeClass)
        (bn : QualifiedName) (refs : List BrowseRef),
        env.readNodeClass n = some nc → env.readBrowseName n = some bn →
        (nc = NodeClass.Object ∨ nc = NodeClass.View) →
        env.browse n = some refs → refs ≠ [] →
        browseAndReadNode env v (fuel + 1) n d =
          Option.map (fun evs => Ev.line (renderLine env n nc bn d) ::
              Ev.browseCall n :: (diagEvs v d refs ++ evs))
            (seqChildren (browseAndReadNode env v fuel) (d + 1) refs))
    ∧ (∀ (rec : NodeId → Nat → Option (List Ev)) (d : Nat) (refs : List BrowseRef),
        seqChildren rec d refs =
          seqOption ((refs.filter (fun r => r.isForward)).map (fun r => rec r.nodeId d))) := by
  refine ⟨?_, ?_, seqChildren_eq⟩
  · intro env v fuel n d nc bn h1 h2 h3
    simp [browseAndReadNode, browseStep, h1, h2, h3]
  · intro env v fuel n d nc bn refs h1 h2 h3 h4 h5
    have hlen : 0 < refs.length := List.length_pos.mpr h5
    simp [browseAndReadNode, browseStep, h1, h2, h3, h4, hlen, Option.map_map]
    rfl

/-- C2 witness: in `envW`, the Method `i=10` is rendered without a browse
call, the Object `i=11` browses and walks its two references, and the
reference loop keeps only the forward reference to `i=10`, dropping the
backward reference to `i=11`. -/
theorem C2_witness :
    browseAndReadNode envW false 1 ⟨0, Identifier.numeric 10⟩ 1 =
      some [Ev.line (renderLine envW ⟨0, Identifier.numeric 10⟩ NodeClass.Method ⟨0, "M"⟩ 1)]
    ∧ browseAndReadNode envW false 2 ⟨0, Identifier.numeric 11⟩ 0 =
      Option.map (fun evs => Ev.line (renderLine envW ⟨0, Identifier.numeric 11⟩ NodeClass.Object ⟨0, "O"⟩ 0) ::
          Ev.browseCall ⟨0, Identifier.numeric 11⟩ ::
          (diagEvs false 0 [⟨⟨0, Identifier.numeric 10⟩, true⟩, ⟨⟨0, Identifier.numeric 11⟩, false⟩] ++ evs))
        (seqChildren (browseAndReadNode envW false 1) 1
          [⟨⟨0, Identifier.numeric 10⟩, true⟩, ⟨⟨0, Identifier.numeric 11⟩, false⟩])
    ∧ seqChildren (browseAndReadNode envW false 1) 1
        [⟨⟨0, Identifier.numeric 10⟩, true⟩, ⟨⟨0, Identifier.numeric 11⟩, false⟩] =
      seqOption (([(⟨⟨0, Identifier.numeric 10⟩, true⟩ : BrowseRef),
          ⟨⟨0, Identifier.numeric 11⟩, false⟩].filter (fun r => r.isForward)).map
        (fun r => browseAndReadNode envW false 1 r.nodeId 1)) :=
  ⟨C2_forward_only_object_view.1 envW false 0 ⟨0, Identifier.numeric 10⟩ 1 NodeClass.Method
      ⟨0, "M"⟩ rfl rfl (by decide),
   C2_forward_only_object_view.2.1 envW false 1 ⟨0, Identifier.numeric 11⟩ 0 NodeClass.Object
      ⟨0, "O"⟩ _ rfl rfl (Or.inl rfl) rfl (by decide),
   C2_forward_only_object_view.2.2 (browseAndReadNode envW false 1) 1 _⟩

/-- Filtering distributes over trace concatenation. -/
theorem stripDiag_append (a b : List Ev) :
    stripDiag (a ++ b) = stripDiag a ++ stripDiag b :=
  List.filter_append ..

/-- A stripped trace has no diagnostic events left. -/
theorem filter_isDiag_stripDiag (evs : List Ev) :
    (stripDiag evs).filter (fun e => Ev.isDiag e) = [] := by
  induction evs with
  | nil => rfl
  | cons e es ih => cases e <;> simp [stripDiag, Ev.isDiag, List.filter_cons, ih]

/-- The reference loop commutes with stripping the diagnostics of every
child run. -/
theorem seqChildren_stripDiag (rt rf : NodeId → Nat → Option (List Ev))
    (h : ∀ n d, Option.map stripDiag (rt n d) = rf n d) (d : Nat) :
    ∀ refs : List BrowseRef,
      Option.map stripDiag (seqChildren rt d refs) = seqChildren rf d refs := by
  intro refs
  induction refs with
  | nil => rfl
  | cons r rs ih =>
      by_cases hf : r.isForward
      · simp only [seqChildren, hf, if_pos]
        cases hrt : rt r.nodeId d with
        | none =>
            have hrf : rf r.nodeId d = none := by rw [← h, hrt]; rfl
            simp [seqTwo_none, hrf]
        | some a =>
            have hrf : rf r.nodeId d = some (stripDiag a) := by rw [← h, hrt]; rfl
            cases hs : seqChildren rt d rs with
            | none =>
                have hs' : seqChildren rf d rs = none := by rw [← ih, hs]; rfl
                simp [seqTwo, hrf, hs']
            | some b =>
                have hs' : seqChildren rf d rs = some (stripDiag b) := by rw [← ih, hs]; rfl
                simp [seqTwo, hrf, hs', stripDiag_append]
      · simp only [seqChildren, hf]
        simpa using ih

/-- Stripping the diagnostic events of a verbose run yields exactly the
non-verbose run: the verbose flag changes nothing else. -/
theorem verbose_strips (env : Env) :
    ∀ (fuel : Nat) (n : NodeId) (d : Nat),
      Option.map stripDiag (browseAndReadNode env true fuel n d) =
        browseAndReadNode env false fuel n d := by
  intro fuel
  induction fuel with
  | zero => intro n d; rfl
  | succ fuel ih =>
      intro n d
      rw [run_succ, run_succ]
      unfold browseStep
      cases h1 : env.readNodeClass n with
      | none => rfl
      | some nc =>
          cases h2 : env.readBrowseName n with
          | none => rfl
          | some bn =>
              by_cases h3 : nc = NodeClass.Object ∨ nc = NodeClass.View
              · simp only [if_pos h3]
                cases h4 : env.browse n with
                | none => simp [stripDiag, Ev.isDiag, List.filter_cons]
                | some refs =>
                    by_cases h5 : 0 < refs.length
                    · simp only [if_pos h5]
                      have hseq := seqChildren_stripDiag _ _ ih (d + 1) refs
                      cases hs : seqChildren (browseAndReadNode env true fuel) (d + 1) refs with
                      | none =>
                          have hs' : seqChildren (browseAndReadNode env false fuel) (d + 1) refs = none := by
                            rw [← hseq, hs]; rfl
                          simp [hs, hs']
                      | some evs =>
                          have hs' : seqChildren (browseAndReadNode env false fuel) (d + 1) refs =
                              some (stripDiag evs) := by
                            rw [← hseq, hs]; rfl
                          by_cases hd : d = 0
                          · subst hd
                            simp [hs, hs', diagEvs, stripDiag, Ev.isDiag, List.filter_cons,
                              List.filter_append]
                          · simp [hs, hs', diagEvs, hd, stripDiag, Ev.isDiag, List.filter_cons,
                              List.filter_append]
                    · simp only [if_neg h5]
                      simp [stripDiag, Ev.isDiag, List.filter_cons]
              · simp only [if_neg h3]
                simp [stripDiag, Ev.isDiag, List.filter_cons]

/-- C9: two runs over the same collaborator that differ only in the
verbose flag produce identical traces once the optional diagnostic line
is removed — verbose never changes node lines, their order, their content,
or termination — and a non-verbose run contains no diagnostic events at
all. -/
theorem C9_verbose_only_adds_diagnostic :
    ∀ (env : Env) (fuel : Nat) (n : NodeId) (d : Nat),
      Option.map stripDiag (browseAndReadNode env true fuel n d) =
        browseAndReadNode env false fuel n d
      ∧ ((browseAndReadNode env false fuel n d).getD []).filter (fun e => Ev.isDiag e) = [] := by
  intro env fuel n d
  refine ⟨verbose_strips env fuel n d, ?_⟩
  cases ht : browseAndReadNode env true fuel n d with
  | none =>
      have : browseAndReadNode env false fuel n d = none := by
        rw [← verbose_strips env fuel n d, ht]; rfl
      simp [this]
  | some evs =>
      have : browseAndReadNode env false fuel n d = some (stripDiag evs) := by
        rw [← verbose_strips env fuel n d, ht]; rfl
      simp [this, filter_isDiag_stripDiag]

/-- If every child run at depth `d` is free of diagnostic events, so is the
whole reference loop. -/
theorem seqChildren_diagFree (rec : NodeId → Nat → Option (List Ev)) (d : Nat)
    (hrec : ∀ n evs, rec n d = some evs → evs.filter (fun e => Ev.isDiag e) = []) :
    ∀ (refs : List BrowseRef) (evs : List Ev),
      seqChildren rec d refs = some evs → evs.filter (fun e => Ev.isDiag e) = [] := by
  intro refs
  induction refs with
  | nil =>
      intro evs h
      simp [seqChildren] at h
      simp [h]
  | cons r rs ih =>
      intro evs h
      by_cases hf : r.isForward
      · simp only [seqChildren, hf, if_pos] at h
        cases hr : rec r.nodeId d with
        | none => rw [hr] at h; simp [seqTwo] at h
        | some a =>
            cases hs : seqChildren rec d rs with
            | none => rw [hr, hs] at h; simp [seqTwo] at h
            | some b =>
                rw [hr, hs] at h
                simp [seqTwo] at h
                rw [← h]
                simp [List.filter_append, hrec _ _ hr, ih _ hs]
      · simp only [seqChildren, hf] at h
        simp only [Bool.false_eq_true, if_false] at h
        exact ih _ h

/-- Branch lemma: a failed attribute read yields the empty trace. -/
theorem run_eq_of_attr_fail (env : Env) (v : Bool) (fuel : Nat) (n : NodeId) (d : Nat)
    (h : env.readNodeClass n = none ∨ env.readBrowseName n = none) :
    browseAndReadNode env v (fuel + 1) n d = some [] := by
  rcases h with h | h
  · simp [browseAndReadNode, browseStep, h]
  · cases hc : env.readNodeClass n <;> simp [browseAndReadNode, browseStep, hc, h]

/-- Branch lemma: a node of a non-browsing class renders only its line. -/
theorem run_eq_of_not_browsing (env : Env) (v : Bool) (fuel : Nat) (n : NodeId) (d : Nat)
    (nc : NodeClass) (bn : QualifiedName)
    (h1 : env.readNodeClass n = some nc) (h2 : env.readBrowseName n = some bn)
    (h3 : ¬(nc = NodeClass.Object ∨ nc = NodeClass.View)) :
    browseAndReadNode env v (fuel + 1) n d = some [Ev.line (renderLine env n nc bn d)] := by
  simp [browseAndReadNode, browseStep, h1, h2, h3]

/-- Branch lemma: a browsing node whose browse fails or returns no
references renders its line and the round trip only. -/
theorem run_eq_of_browse_empty (env : Env) (v : Bool) (fuel : Nat) (n : NodeId) (d : Nat)
    (nc : NodeClass) (bn : QualifiedName)
    (h1 : env.readNodeClass n = some nc) (h2 : env.readBrowseName n = some bn)
    (h3 : nc = NodeClass.Object ∨ nc = NodeClass.View)
    (h4 : env.browse n = none ∨ env.browse n = some []) :
    browseAndReadNode env v (fuel + 1) n d =
      some [Ev.line (renderLine env n nc bn d), Ev.browseCall n] := by
  rcases h4 with h4 | h4 <;> simp [browseAndReadNode, browseStep, h1, h2, h3, h4]

/-- Branch lemma: a browsing node with a non-empty reference list renders
its line, the round trip, the optional diagnostic, and the loop's trace. -/
theorem run_eq_of_browse (env : Env) (v : Bool) (fuel : Nat) (n : NodeId) (d : Nat)
    (nc : NodeClass) (bn : QualifiedName) (refs : List BrowseRef)
    (h1 : env.readNodeClass n = some nc) (h2 : env.readBrowseName n = some bn)
    (h3 : nc = NodeClass.Object ∨ nc = NodeClass.View)
    (h4 : env.browse n = some refs) (h5 : 0 < refs.length) :
    browseAndReadNode env v (fuel + 1) n d =
      Option.map (fun evs => Ev.line (renderLine env n nc bn d) ::
          Ev.browseCall n :: (diagEvs v d refs ++ evs))
        (seqChildren (browseAndReadNode env v fuel) (d + 1) refs) := by
  simp [browseAndReadNode, browseStep, h1, h2, h3, h4, h5, Option.map_map]
  rfl

/-- A run started at any positive depth emits no diagnostic events: the
diagnostic is gated on `depth == 0`. -/
theorem run_diagFree_depth_pos (env : Env) (v : Bool) :
    ∀ (fuel : Nat) (n : NodeId) (d : Nat) (evs : List Ev),
      browseAndReadNode env v fuel n (d + 1) = some evs →
      evs.filter (fun e => Ev.isDiag e) = [] := by
  intro fuel
  induction fuel with
  | zero =>
      intro n d evs h
      exact absurd h (by simp [browseAndReadNode])
  | succ fuel ih =>
      intro n d evs h
      rcases h1 : env.readNodeClass n with _ | nc
      · rw [run_eq_of_attr_fail env v fuel n (d + 1) (Or.inl h1)] at h
        simp at h
        simp [h]
      · rcases h2 : env.readBrowseName n with _ | bn
        · rw [run_eq_of_attr_fail env v fuel n (d + 1) (Or.inr h2)] at h
          simp at h
          simp [h]
        · by_cases h3 : nc = NodeClass.Object ∨ nc = NodeClass.View
          · rcases h4 : env.browse n with _ | refs
            · rw [run_eq_of_browse_empty env v fuel n (d + 1) nc bn h1 h2 h3 (Or.inl h4)] at h
              simp at h
              simp [← h, Ev.isDiag, List.filter_cons]
            · by_cases h5 : 0 < refs.length
              · rw [run_eq_of_browse env v fuel n (d + 1) nc bn refs h1 h2 h3 h4 h5] at h
                rcases hs : seqChildren (browseAndReadNode env v fuel) (d + 1 + 1) refs
                  with _ | cevs
                · rw [hs] at h
                  simp at h
                · rw [hs] at h
                  simp at h
                  have hcf := seqChildren_diagFree (browseAndReadNode env v fuel) (d + 1 + 1)
                    (fun m mevs hh => ih m (d + 1) mevs hh) refs cevs hs
                  simp [← h, diagEvs, List.filter_cons, List.filter_append, Ev.isDiag, hcf]
                  intro a ha
                  have hna := List.filter_eq_nil_iff.mp hcf a ha
                  simpa [Ev.isDiag] using hna
              · have h5' : refs = [] := by
                  cases refs with
                  | nil => rfl
                  | cons a as => exact absurd (by simp) h5
                rw [run_eq_of_browse_empty env v fuel n (d + 1) nc bn h1 h2 h3
                  (Or.inr (h5' ▸ h4))] at h
                simp at h
                simp [← h, Ev.isDiag, List.filter_cons]
          · rw [run_eq_of_not_browsing env v fuel n (d + 1) nc bn h1 h2 h3] at h
            simp at h
            simp [← h, Ev.isDiag, List.filter_cons]

/-- Any run carries at most one diagnostic event: the children always run
at positive depth, where the diagnostic is never produced. -/
theorem run_diag_le_one (env : Env) (v : Bool) (fuel : Nat) (n : NodeId) (d : Nat)
    (evs : List Ev) (h : browseAndReadNode env v fuel n d = some evs) :
    (evs.filter (fun e => Ev.isDiag e)).length ≤ 1 := by
  cases fuel with
  | zero => exact absurd h (by simp [browseAndReadNode])
  | succ fuel =>
      rcases h1 : env.readNodeClass n with _ | nc
      · rw [run_eq_of_attr_fail env v fuel n d (Or.inl h1)] at h
        simp at h
        simp [h]
      · rcases h2 : env.readBrowseName n with _ | bn
        · rw [run_eq_of_attr_fail env v fuel n d (Or.inr h2)] at h
          simp at h
          simp [h]
        · by_cases h3 : nc = NodeClass.Object ∨ nc = NodeClass.View
          · rcases h4 : env.browse n with _ | refs
            · rw [run_eq_of_browse_empty env v fuel n d nc bn h1 h2 h3 (Or.inl h4)] at h
              simp at h
              simp [← h, Ev.isDiag, List.filter_cons]
            · by_cases h5 : 0 < refs.length
              · rw [run_eq_of_browse env v fuel n d nc bn refs h1 h2 h3 h4 h5] at h
                rcases hs : seqChildren (browseAndReadNode env v fuel) (d + 1) refs
                  with _ | cevs
                · rw [hs] at h
                  simp at h
                · rw [hs] at h
                  simp at h
                  have hcf := seqChildren_diagFree (browseAndReadNode env v fuel) (d + 1)
                    (fun m mevs hh => run_diagFree_depth_pos env v fuel m d mevs hh) refs cevs hs
                  rw [← h]
                  have hsplit : List.filter (fun e => Ev.isDiag e)
                      (Ev.line (renderLine env n nc bn d) :: Ev.browseCall n ::
                        (diagEvs v d refs ++ cevs)) =
                      List.filter (fun e => Ev.isDiag e) (diagEvs v d refs) ++
                      List.filter (fun e => Ev.isDiag e) cevs := by
                    simp [List.filter_cons, List.filter_append, Ev.isDiag]
                  rw [hsplit, hcf]
                  by_cases hvd : v = true ∧ d = 0 <;>
                    simp [diagEvs, hvd, Ev.isDiag, List.filter_cons]
              · have h5' : refs = [] := by
                  cases refs with
                  | nil => rfl
                  | cons a as => exact absurd (by simp) h5
                rw [run_eq_of_browse_empty env v fuel n d nc bn h1 h2 h3 (Or.inr (h5' ▸ h4))] at h
                simp at h
                simp [← h, Ev.isDiag, List.filter_cons]
          · rw [run_eq_of_not_browsing env v fuel n d nc bn h1 h2 h3] at h
            simp at h
            simp [← h, Ev.isDiag, List.filter_cons]

/-- On a trace without diagnostic events, every sink write is a node line. -/
theorem writesOf_eq_nodeLines (evs : List Ev)
    (h : evs.filter (fun e => Ev.isDiag e) = []) :
    writesOf evs = nodeLinesOf evs := by
  induction evs with
  | nil => rfl
  | cons e es ih =>
      cases e with
      | line s =>
          rw [List.filter_cons] at h
          simp [Ev.isDiag] at h
          simp [writesOf, nodeLinesOf, List.filterMap_cons] at *
          exact ih h
      | diag s =>
          rw [List.filter_cons] at h
          simp [Ev.isDiag] at h
      | browseCall m =>
          rw [List.filter_cons] at h
          simp [Ev.isDiag] at h
          simp [writesOf, nodeLinesOf, List.filterMap_cons] at *
          exact ih h

/-- A non-verbose run has no diagnostic events. -/
theorem run_false_diagFree (env : Env) (fuel : Nat) (n : NodeId) (d : Nat) :
    ((browseAndReadNode env false fuel n d).getD []).filter (fun e => Ev.isDiag e) = [] := by
  cases ht : browseAndReadNode env true fuel n d with
  | none =>
      have hf : browseAndReadNode env false fuel n d = none := by
        rw [← verbose_strips env fuel n d, ht]; rfl
      simp [hf]
  | some evs =>
      have hf : browseAndReadNode env false fuel n d = some (stripDiag evs) := by
        rw [← verbose_strips env fuel n d, ht]; rfl
      simp [hf, filter_isDiag_stripDiag]

/-- Whenever the two attribute reads succeed, the node's own line is the
first event of its trace: pre-order starts at the parent. -/
theorem run_head_line (env : Env) (v : Bool) (fuel : Nat) (n : NodeId) (d : Nat)
    (nc : NodeClass) (bn : QualifiedName) (evs : List Ev)
    (h1 : env.readNodeClass n = some nc) (h2 : env.readBrowseName n = some bn)
    (h : browseAndReadNode env v (fuel + 1) n d = some evs) :
    evs.head? = some (Ev.line (renderLine env n nc bn d)) := by
  by_cases h3 : nc = NodeClass.Object ∨ nc = NodeClass.View
  · rcases h4 : env.browse n with _ | refs
    · rw [run_eq_of_browse_empty env v fuel n d nc bn h1 h2 h3 (Or.inl h4)] at h
      simp only [Option.some.injEq] at h
      subst h
      rfl
    · by_cases h5 : 0 < refs.length
      · rw [run_eq_of_browse env v fuel n d nc bn refs h1 h2 h3 h4 h5] at h
        rcases hs : seqChildren (browseAndReadNode env v fuel) (d + 1) refs with _ | cevs
        · rw [hs] at h
          simp at h
        · rw [hs] at h
          simp only [Option.map_some', Option.some.injEq] at h
          subst h
          rfl
      · have h5' : refs = [] := by
          cases refs with
          | nil => rfl
          | cons a as => exact absurd (by simp) h5
        rw [run_eq_of_browse_empty env v fuel n d nc bn h1 h2 h3 (Or.inr (h5' ▸ h4))] at h
        simp only [Option.some.injEq] at h
        subst h
        rfl
  · rw [run_eq_of_not_browsing env v fuel n d nc bn h1 h2 h3] at h
    simp only [Option.some.injEq] at h
    subst h
    rfl

/-- C8: counterexample — in a verbose run over `envW` from the Object
`i=11`, two nodes are successfully read but three sink writes occur: the
reference-count diagnostic line is a sink write that belongs to no node, so
a traversal run does not make exactly one sink write per successfully-read
node. -/
theorem C8_counterexample :
    browseAndReadNode envW true 2 ⟨0, Identifier.numeric 11⟩ 0 =
      some [Ev.line "O  [ns=0;i=11] (Object)", Ev.browseCall ⟨0, Identifier.numeric 11⟩,
            Ev.diag "  Found 2 references to browse", Ev.line "  M  [ns=0;i=10] (Method)"]
    ∧ (writesOf [Ev.line "O  [ns=0;i=11] (Object)", Ev.browseCall ⟨0, Identifier.numeric 11⟩,
          Ev.diag "  Found 2 references to browse",
          Ev.line "  M  [ns=0;i=10] (Method)"]).length = 3
    ∧ (nodeLinesOf [Ev.line "O  [ns=0;i=11] (Object)", Ev.browseCall ⟨0, Identifier.numeric 11⟩,
          Ev.diag "  Found 2 references to browse",
          Ev.line "  M  [ns=0;i=10] (Method)"]).length = 2 :=
  ⟨rfl, rfl, rfl⟩

/-- C8 (amended): excluding the verbose diagnostic, every sink write of a
run is a node line (in a non-verbose run the two coincide exactly); any run
carries at most one diagnostic event, and none at all when started at
positive depth; the parent's line is always the first event of its trace;
and the reference loop concatenates the children's traces in
collaborator-returned order — strict pre-order. -/
theorem C8_amended_one_write_preorder :
    (∀ (env : Env) (fuel : Nat) (n : NodeId) (d : Nat),
        writesOf ((browseAndReadNode env false fuel n d).getD []) =
          nodeLinesOf ((browseAndReadNode env false fuel n d).getD []))
    ∧ (∀ (env : Env) (v : Bool) (fuel : Nat) (n : NodeId) (d : Nat) (evs : List Ev),
        browseAndReadNode env v fuel n d = some evs →
        (evs.filter (fun e => Ev.isDiag e)).length ≤ 1)
    ∧ (∀ (env : Env) (v : Bool) (fuel : Nat) (n : NodeId) (d : Nat),
        ((browseAndReadNode env v fuel n (d + 1)).getD []).filter (fun e => Ev.isDiag e) = [])
    ∧ (∀ (env : Env) (v : Bool) (fuel : Nat) (n : NodeId) (d : Nat) (nc : NodeClass)
        (bn : QualifiedName) (evs : List Ev),
        env.readNodeClass n = some nc → env.readBrowseName n = some bn →
        browseAndReadNode env v (fuel + 1) n d = some evs →
        evs.head? = some (Ev.line (renderLine env n nc bn d)))
    ∧ (∀ (rec : NodeId → Nat → Option (List Ev)) (d : Nat) (refs : List BrowseRef),
        seqChildren rec d refs =
          seqOption ((refs.filter (fun r => r.isForward)).map (fun r => rec r.nodeId d))) := by
  refine ⟨?_, ?_, ?_, run_head_line, seqChildren_eq⟩
  · intro env fuel n d
    exact writesOf_eq_nodeLines _ (run_false_diagFree env fuel n d)
  · intro env v fuel n d evs h
    exact run_diag_le_one env v fuel n d evs h
  · intro env v fuel n d
    cases hr : browseAndReadNode env v fuel n (d + 1) with
    | none => simp
    | some evs => simpa using run_diagFree_depth_pos env v fuel n d evs hr

/-- C8 witness: the amended theorem evaluated on `envW`: the non-verbose
run's writes are its node lines, the verbose run's trace holds at most one
diagnostic, and the Object `i=11`'s own line heads its trace. -/
theorem C8_witness :
    writesOf ((browseAndReadNode envW false 2 ⟨0, Identifier.numeric 11⟩ 0).getD []) =
      nodeLinesOf ((browseAndReadNode envW false 2 ⟨0, Identifier.numeric 11⟩ 0).getD [])
    ∧ (([Ev.line "O  [ns=0;i=11] (Object)", Ev.browseCall ⟨0, Identifier.numeric 11⟩,
          Ev.diag "  Found 2 references to browse",
          Ev.line "  M  [ns=0;i=10] (Method)"].filter (fun e => Ev.isDiag e)).length ≤ 1)
    ∧ ([Ev.line "O  [ns=0;i=11] (Object)", Ev.browseCall ⟨0, Identifier.numeric 11⟩,
        Ev.line "  M  [ns=0;i=10] (Method)"].head? =
          some (Ev.line (renderLine envW ⟨0, Identifier.numeric 11⟩ NodeClass.Object ⟨0, "O"⟩ 0))) :=
  ⟨C8_amended_one_write_preorder.1 envW 2 ⟨0, Identifier.numeric 11⟩ 0,
   C8_amended_one_write_preorder.2.1 envW true 2 ⟨0, Identifier.numeric 11⟩ 0 _ rfl,
   C8_amended_one_write_preorder.2.2.2.1 envW false 1 ⟨0, Identifier.numeric 11⟩ 0
     NodeClass.Object ⟨0, "O"⟩ _ rfl rfl rfl⟩

/-- Over the cyclic collaborator every run exhausts any fuel: the C
recursion, which has no depth check, never returns. -/
theorem cycEnv_no_fuel_suffices (v : Bool) :
    ∀ (fuel : Nat) (n : NodeId) (d : Nat),
      browseAndReadNode cycEnv v fuel n d = none := by
  intro fuel
  induction fuel with
  | zero => intro n d; rfl
  | succ fuel ih =>
      intro n d
      have h4 : cycEnv.browse n = some [⟨⟨0, Identifier.numeric 85⟩, true⟩] := rfl
      rw [run_eq_of_browse cycEnv v fuel n d NodeClass.Object ⟨0, "Objects"⟩
        [⟨⟨0, Identifier.numeric 85⟩, true⟩] rfl rfl (Or.inl rfl) h4 (by simp)]
      simp [seqChildren, ih, seqTwo_none]

/-- C1: counterexample — the traversal context has no `maxDepth` field and
the code performs no depth check: over a collaborator whose root carries a
forward reference to itself, the traversal from the root never terminates
(no fuel value suffices), so the emitted sequence of rendered lines is not
finite and no depth bound stops the recursion. -/
theorem C1_counterexample : divergesFrom cycEnv false ⟨0, Identifier.numeric 85⟩ 0 :=
  fun fuel => cycEnv_no_fuel_suffices false fuel ⟨0, Identifier.numeric 85⟩ 0

/-- On the finite forward chain `chainFin (k + m)`, the run started at node
`i=k` and depth `k` completes with fuel `m + 1` and visits the chain's last
node at depth `k + m`: depth grows by exactly one per descent and no bound
cuts it off. -/
theorem chain_visits (m : Nat) : ∀ k : Nat, ∃ evs,
    browseAndReadNode (chainFin (k + m)) false (m + 1) ⟨0, Identifier.numeric k⟩ k = some evs ∧
    Ev.line (renderLine (chainFin (k + m)) ⟨0, Identifier.numeric (k + m)⟩ NodeClass.Object
      ⟨0, "N"⟩ (k + m)) ∈ evs := by
  induction m with
  | zero =>
      intro k
      have h4 : (chainFin (k + 0)).browse ⟨0, Identifier.numeric k⟩ = some [] := by
        simp [chainFin]
      refine ⟨[Ev.line (renderLine (chainFin (k + 0)) ⟨0, Identifier.numeric k⟩ NodeClass.Object
        ⟨0, "N"⟩ k), Ev.browseCall ⟨0, Identifier.numeric k⟩], ?_, ?_⟩
      · exact run_eq_of_browse_empty (chainFin (k + 0)) false 0 ⟨0, Identifier.numeric k⟩ k
          NodeClass.Object ⟨0, "N"⟩ rfl rfl (Or.inl rfl) (Or.inr h4)
      · simp
  | succ m ih =>
      intro k
      obtain ⟨evs, hrun, hmem⟩ := ih (k + 1)
      have harith : k + 1 + m = k + (m + 1) := by omega
      rw [harith] at hrun hmem
      have h4 : (chainFin (k + (m + 1))).browse ⟨0, Identifier.numeric k⟩ =
          some [⟨⟨0, Identifier.numeric (k + 1)⟩, true⟩] := by
        simp [chainFin]
      have hstep : browseAndReadNode (chainFin (k + (m + 1))) false (m + 1 + 1)
          ⟨0, Identifier.numeric k⟩ k =
          some (Ev.line (renderLine (chainFin (k + (m + 1))) ⟨0, Identifier.numeric k⟩
              NodeClass.Object ⟨0, "N"⟩ k) ::
            Ev.browseCall ⟨0, Identifier.numeric k⟩ :: (diagEvs false k
              [⟨⟨0, Identifier.numeric (k + 1)⟩, true⟩] ++ (evs ++ []))) := by
        rw [run_eq_of_browse (chainFin (k + (m + 1))) false (m + 1) ⟨0, Identifier.numeric k⟩ k
          NodeClass.Object ⟨0, "N"⟩ [⟨⟨0, Identifier.numeric (k + 1)⟩, true⟩]
          rfl rfl (Or.inl rfl) h4 (by simp)]
        simp [seqChildren, hrun, seqTwo]
      refine ⟨_, hstep, ?_⟩
      simp [diagEvs, hmem]

/-- C1 (amended): the context carries no `maxDepth` and the traversal
enforces no depth bound — for every `L`, the run over the forward chain of
length `L` completes and emits the line of the node at depth `L`, so nodes
at arbitrarily large depth are visited; finiteness of the emitted sequence
holds only when the reachable forward-reference graph itself is finite (a
forward cycle, as in the counterexample, recurses forever). -/
theorem C1_amended_no_depth_bound : ∀ L : Nat, ∃ evs,
    browseAndReadNode (chainFin L) false (L + 1) ⟨0, Identifier.numeric 0⟩ 0 = some evs ∧
    Ev.line (renderLine (chainFin L) ⟨0, Identifier.numeric L⟩ NodeClass.Object
      ⟨0, "N"⟩ L) ∈ evs := by
  intro L
  have h := chain_visits L 0
  simpa using h

/-- Decimal digit characters are digit characters. -/
theorem digitChar_isDigit : ∀ k, k < 10 → (Nat.digitChar k).isDigit = true := by decide

/-- Value of a decimal digit character. -/
theorem digitChar_val : ∀ k, k < 10 → (Nat.digitChar k).toNat - 48 = k := by decide

/-- The digit list of a number is never empty. -/
theorem natDigits_ne_nil (n : Nat) : natDigits n ≠ [] := by
  rw [natDigits]
  split <;> simp

/-- Every character of the digit list is a digit. -/
theorem natDigits_all_isDigit (n : Nat) : (natDigits n).all Char.isDigit = true := by
  induction n using Nat.strong_induction_on with
  | _ n ih =>
      rw [natDigits]
      split
      · next h => simp [digitChar_isDigit n h]
      · next h =>
          have hlt : n / 10 < n := Nat.div_lt_self (by omega) (by omega)
          simp [List.all_append, ih _ hlt,
            digitChar_isDigit (n % 10) (Nat.mod_lt _ (by omega))]

/-- The digit accumulator of core's `Nat.toDigitsCore` at base 10 is
`natDigits`, given enough fuel. -/
theorem toDigitsCore_eq_natDigits :
    ∀ (fuel n : Nat) (ds : List Char), n < fuel →
      Nat.toDigitsCore 10 fuel n ds = natDigits n ++ ds := by
  intro fuel
  induction fuel with
  | zero => intro n ds h; omega
  | succ fuel ih =>
      intro n ds h
      rw [Nat.toDigitsCore]
      by_cases h0 : n / 10 = 0
      · have hn : n < 10 := by omega
        rw [natDigits]
        simp [h0, hn, Nat.mod_eq_of_lt hn]
      · have hfl : n / 10 < fuel := by
          have : n / 10 < n := Nat.div_lt_self (by omega) (by omega)
          omega
        have hsplit : natDigits n = natDigits (n / 10) ++ [Nat.digitChar (n % 10)] := by
          rw [natDigits, dif_neg (show ¬ n < 10 by omega)]
        rw [if_neg h0, ih _ _ hfl, hsplit]
        simp [List.append_assoc]

/-- Reading the digit list back, left to right, recovers the number. -/
theorem natDigits_foldl (n : Nat) : ∀ acc : Nat,
    (natDigits n).foldl (fun a c => a * 10 + (c.toNat - 48)) acc =
      acc * 10 ^ (natDigits n).length + n := by
  induction n using Nat.strong_induction_on with
  | _ n ih =>
      intro acc
      by_cases h : n < 10
      · rw [natDigits, dif_pos h]
        simp [digitChar_val n h]
      · have hlt : n / 10 < n := Nat.div_lt_self (by omega) (by omega)
        have hsplit : natDigits n = natDigits (n / 10) ++ [Nat.digitChar (n % 10)] := by
          rw [natDigits, dif_neg h]
        rw [hsplit, List.foldl_append]
        simp only [List.foldl]
        rw [ih _ hlt acc, digitChar_val (n % 10) (Nat.mod_lt _ (by omega)), List.length_append]
        simp only [List.length_singleton, pow_succ]
        have hmm : acc * (10 ^ (natDigits (n / 10)).length * 10) =
            acc * 10 ^ (natDigits (n / 10)).length * 10 := by ring
        rw [hmm]
        generalize acc * 10 ^ (natDigits (n / 10)).length = q
        omega

/-- The characters of `Nat.repr` are exactly the decimal digit list. -/
theorem repr_data_eq_natDigits (n : Nat) : (Nat.repr n).data = natDigits n := by
  show (Nat.toDigits 10 n).asString.data = natDigits n
  rw [Nat.toDigits, toDigitsCore_eq_natDigits (n + 1) n [] (by omega)]
  simp [List.asString]

/-- `Nat.repr` produces decimal text: a nonempty all-digit string whose
base-10 reading is the number itself. -/
theorem decVal_repr (n : Nat) : decVal? (Nat.repr n) = some n := by
  simp [decVal?, repr_data_eq_natDigits, natDigits_ne_nil, natDigits_all_isDigit, natDigits_foldl]

/-- `%02u` of a value below 100 is two digit characters. -/
theorem pad2_two_digit_chars : ∀ m, m < 100 →
    (pad2 m).data.length = 2 ∧ (pad2 m).data.all Char.isDigit = true := by decide

/-- The `%.2f` rendering always ends in a decimal point and two digits. -/
theorem isFixedTwoDecimal_format2f (q : ℚ) : isFixedTwoDecimal (format2f q) := by
  have hm : ((round (q * 100) : ℤ).natAbs % 100) < 100 := Nat.mod_lt _ (by omega)
  obtain ⟨hlen, hdig⟩ := pad2_two_digit_chars _ hm
  rcases hd : (pad2 ((round (q * 100) : ℤ).natAbs % 100)).data with _ | ⟨a, rest⟩
  · rw [hd] at hlen
    simp at hlen
  · rcases rest with _ | ⟨b, rest2⟩
    · rw [hd] at hlen
      simp at hlen
    · rcases rest2 with _ | ⟨c, rest3⟩
      · rw [hd] at hdig
        simp at hdig
        refine ⟨((if q < 0 then "-" else "") ++
            Nat.repr ((round (q * 100) : ℤ).natAbs / 100)).data, a, b, ?_, hdig.1, hdig.2⟩
        show (format2f q).data = _
        simp only [format2f, String.data_append, hd, List.append_assoc]
        rfl
      · rw [hd] at hlen
        simp at hlen

/-- C5: the decoder is a total function over all `AttributeValue` kinds
and maps Boolean to `"true"`/`"false"`; UInt16 and UInt32 to decimal text
(a nonempty digit string that reads back to the value); Float to fixed
2-decimal-place text; DateTime to zero-padded `"YYYY-MM-DD HH:MM:SS"` from
the calendar breakdown (the spec's example value included); and any other
kind to `"[<type-name>]"` — never an error. -/
theorem C5_decode_dispatch :
    (decode (.boolean true) = "true" ∧ decode (.boolean false) = "false")
    ∧ (∀ v : Nat, decVal? (decode (.uint16 v)) = some v)
    ∧ (∀ v : Nat, decVal? (decode (.uint32 v)) = some v)
    ∧ (∀ q : ℚ, isFixedTwoDecimal (decode (.float q)))
    ∧ decode (.dateTime ⟨2025, 1, 1, 0, 0, 0⟩) = "2025-01-01 00:00:00"
    ∧ decode (.dateTime ⟨2025, 12, 31, 23, 59, 9⟩) = "2025-12-31 23:59:09"
    ∧ (∀ t : String, decode (.other t) = "[" ++ t ++ "]") := by
  refine ⟨⟨rfl, rfl⟩, fun v => decVal_repr v, fun v => decVal_repr v,
    fun q => isFixedTwoDecimal_format2f q, by decide, by decide, fun t => rfl⟩

/-- Truncation is the identity on text that fits the buffer. -/
theorem strTake_of_le (k : Nat) (s : String) (h : s.length ≤ k) : strTake k s = s := by
  obtain ⟨l⟩ := s
  apply String.ext
  simp only [strTake]
  exact List.take_of_length_le (by simpa using h)

/-- Truncating a concatenation whose head fits truncates the tail by the
remaining space. -/
theorem strTake_append_of_le (k : Nat) (a b : String) (h : a.length ≤ k) :
    strTake k (a ++ b) = a ++ strTake (k - a.length) b := by
  obtain ⟨la⟩ := a
  obtain ⟨lb⟩ := b
  apply String.ext
  simp only [strTake, String.data_append]
  rw [List.take_append_eq_append_take, List.take_of_length_le (by simpa using h)]
  simp [String.length] at h ⊢

/-- Two truncations collapse to the tighter one. -/
theorem strTake_strTake (j k : Nat) (s : String) :
    strTake j (strTake k s) = strTake (min j k) s := by
  apply String.ext
  simp [strTake, List.take_take]

/-- A number below `10 ^ (k + 1)` has at most `k + 1` decimal digits. -/
theorem natDigits_length_le : ∀ (k n : Nat), n < 10 ^ (k + 1) → (natDigits n).length ≤ k + 1 := by
  intro k
  induction k with
  | zero =>
      intro n h
      rw [natDigits, dif_pos (by simpa using h)]
      simp
  | succ k ih =>
      intro n h
      by_cases h10 : n < 10
      · rw [natDigits, dif_pos h10]
        simp
      · rw [natDigits, dif_neg h10]
        have hdiv : n / 10 < 10 ^ (k + 1) := by
          apply Nat.div_lt_of_lt_mul
          calc n < 10 ^ (k + 1 + 1) := h
          _ = 10 * 10 ^ (k + 1) := by ring
        have hlen := ih (n / 10) hdiv
        simp only [List.length_append, List.length_singleton]
        omega

/-- Decimal length bound for `Nat.repr`. -/
theorem repr_length_le (k n : Nat) (h : n < 10 ^ (k + 1)) : (Nat.repr n).length ≤ k + 1 := by
  have hd : (Nat.repr n).length = (natDigits n).length := by
    have : (Nat.repr n).length = (Nat.repr n).data.length := rfl
    rw [this, repr_data_eq_natDigits]
  rw [hd]
  exact natDigits_length_le k n h

/-- The `" [ns=%u;"` buffer prefix of a uint16 namespace index is at most
11 characters, so the 256-byte buffer never truncates it. -/
theorem nodeIdPrefix_len (ns : Nat) (h : ns < 65536) :
    (" [ns=" ++ Nat.repr ns ++ ";").length ≤ 11 := by
  have h5 : (Nat.repr ns).length ≤ 5 := repr_length_le 4 ns (by omega)
  have e1 : (" [ns=" : String).length = 5 := rfl
  have e2 : ((";") : String).length = 1 := rfl
  simp only [String.length_append, e1, e2]
  omega

/-- The string-identifier leg renders the first 255 characters of the
untruncated text: the buffer law of `snprintf` plus `strncat`. -/
theorem formatNodeId_str_trunc (ns : Nat) (s : String) (h : ns < 65536) :
    formatNodeId ⟨ns, Identifier.str s⟩ =
      strTake 255 (" [ns=" ++ Nat.repr ns ++ ";" ++ ("s=" ++ s ++ "]")) := by
  have hp : (" [ns=" ++ Nat.repr ns ++ ";").length ≤ 255 := le_trans (nodeIdPrefix_len ns h) (by omega)
  show strTake 255 (" [ns=" ++ Nat.repr ns ++ ";") ++ _ = _
  rw [strTake_of_le _ _ hp, String.append_assoc, strTake_append_of_le 255 _ _ hp,
    strTake_strTake, Nat.min_eq_left (by omega), ← String.append_assoc]

/-- The numeric-identifier leg of a uint16/uint32 NodeId always fits. -/
theorem formatNodeId_numeric_closed (ns v : Nat) (h : ns < 65536) (hv : v < 4294967296) :
    formatNodeId ⟨ns, Identifier.numeric v⟩ =
      " [ns=" ++ Nat.repr ns ++ ";" ++ ("i=" ++ Nat.repr v ++ "]") := by
  have hp : (" [ns=" ++ Nat.repr ns ++ ";").length ≤ 11 := nodeIdPrefix_len ns h
  have hvlen : (Nat.repr v).length ≤ 10 := repr_length_le 9 v (by omega)
  have hleg : ("i=" ++ Nat.repr v ++ "]").length ≤ 13 := by
    have e1 : (("i=") : String).length = 2 := rfl
    have e2 : (("]") : String).length = 1 := rfl
    simp only [String.length_append, e1, e2]
    omega
  show strTake 255 (" [ns=" ++ Nat.repr ns ++ ";") ++ _ = _
  rw [strTake_of_le _ _ (le_trans hp (by omega)),
    strTake_of_le 63 _ (le_trans hleg (by omega)),
    strTake_of_le _ _ (le_trans hleg (by omega))]

/-- C6 (amended): the formatter is deterministic, total and
side-effect-free, and models the 256-byte `nodeIdStr` buffer.  For a uint16
namespace index: a uint32 Numeric identifier always renders the closed
shape `" [ns=<ns>;i=<v>]"`; a String identifier renders the first 255
characters of `" [ns=<ns>;s=<v>]"` — the closed shape exactly when that
text fits the buffer, and a truncated prefix that loses the closing bracket
otherwise; Guid and ByteString identifiers render only `" [ns=<ns>;"` with
no kind tag, no value and no closing bracket. -/
theorem C6_amended_format :
    (∀ (ns v : Nat), ns < 65536 → v < 4294967296 →
        formatNodeId ⟨ns, Identifier.numeric v⟩ =
          " [ns=" ++ Nat.repr ns ++ ";" ++ ("i=" ++ Nat.repr v ++ "]"))
    ∧ (∀ (ns : Nat) (s : String), ns < 65536 →
        formatNodeId ⟨ns, Identifier.str s⟩ =
          strTake 255 (" [ns=" ++ Nat.repr ns ++ ";" ++ ("s=" ++ s ++ "]")))
    ∧ (∀ (ns : Nat) (s : String), ns < 65536 →
        (" [ns=" ++ Nat.repr ns ++ ";" ++ ("s=" ++ s ++ "]")).length ≤ 255 →
        formatNodeId ⟨ns, Identifier.str s⟩ =
          " [ns=" ++ Nat.repr ns ++ ";" ++ ("s=" ++ s ++ "]"))
    ∧ (∀ (ns : Nat) (bytes : List Nat), ns < 65536 →
        formatNodeId ⟨ns, Identifier.guid bytes⟩ = " [ns=" ++ Nat.repr ns ++ ";" ∧
        formatNodeId ⟨ns, Identifier.bytestr bytes⟩ = " [ns=" ++ Nat.repr ns ++ ";") := by
  refine ⟨formatNodeId_numeric_closed, formatNodeId_str_trunc, ?_, ?_⟩
  · intro ns s h hfit
    rw [formatNodeId_str_trunc ns s h, strTake_of_le _ _ hfit]
  · intro ns bytes h
    have hp : (" [ns=" ++ Nat.repr ns ++ ";").length ≤ 255 :=
      le_trans (nodeIdPrefix_len ns h) (by omega)
    exact ⟨strTake_of_le _ _ hp, strTake_of_le _ _ hp⟩

/-- C6 witness: the amended characterisation applied to concrete
identifiers of each kind, hypotheses discharged by evaluation. -/
theorem C6_witness :
    formatNodeId ⟨0, Identifier.numeric 85⟩ =
      " [ns=" ++ Nat.repr 0 ++ ";" ++ ("i=" ++ Nat.repr 85 ++ "]")
    ∧ formatNodeId ⟨1, Identifier.str "x"⟩ =
      strTake 255 (" [ns=" ++ Nat.repr 1 ++ ";" ++ ("s=" ++ "x" ++ "]"))
    ∧ formatNodeId ⟨2, Identifier.str "abc"⟩ =
      " [ns=" ++ Nat.repr 2 ++ ";" ++ ("s=" ++ "abc" ++ "]")
    ∧ (formatNodeId ⟨3, Identifier.guid [1, 2]⟩ = " [ns=" ++ Nat.repr 3 ++ ";" ∧
       formatNodeId ⟨3, Identifier.bytestr [1, 2]⟩ = " [ns=" ++ Nat.repr 3 ++ ";") :=
  ⟨C6_amended_format.1 0 85 (by decide) (by decide),
   C6_amended_format.2.1 1 "x" (by decide),
   C6_amended_format.2.2.1 2 "abc" (by decide) (by decide),
   C6_amended_format.2.2.2 3 [1, 2] (by decide)⟩

set_option maxRecDepth 4000 in
/-- Concrete truncation: a 300-character string identifier fills the
buffer to its 255-character cap and the closing bracket is cut off — the
last surviving character is the identifier's own text. -/
theorem formatNodeId_truncation_example :
    (formatNodeId ⟨0, Identifier.str (String.mk (List.replicate 300 'a'))⟩).length = 255 ∧
    (formatNodeId ⟨0, Identifier.str (String.mk (List.replicate 300 'a'))⟩).data.getLast? =
      some 'a' := by decide
